import Mathlib

/-
Verification development for the STM32 ADC core driver
(drivers/iio/adc/stm32-adc-core.c).

The definitions below are a shallow embedding of the driver's pure logic:
register values are Nat (u32 contents), voltages are Int (microvolts, as
returned by regulator_get_voltage), fallible routines return Except Int
with the negative errno the C code returns (-ENOENT = -2, -EINVAL = -22).
Hardware accesses (readl/writel, regmap, clk, regulator calls) are made
explicit: register contents and clock rates are passed in as values,
side effects are returned as result values or as traces of operations.
-/

/-- Common status/control register description, one per compatible
(struct stm32_adc_common_regs).  The csr/ccr/ier offsets of the C
structure are elided: the embedding passes register contents directly,
so only the per-instance bit masks matter. -/
structure CommonRegs where
  eoc1_msk : Nat
  eoc2_msk : Nat
  eoc3_msk : Nat
  jeoc1_msk : Nat
  jeoc2_msk : Nat
  jeoc3_msk : Nat
  eocie_msk : Nat
deriving DecidableEq

/-- STM32F4 register description (stm32f4_adc_common_regs).  The masks are
the literal values of STM32F4_EOC_MASK1..3 and STM32F4_JEOC_MASK1..3:
EOC_MASKn = EOCn|AWDn|OVRn, JEOC_MASKn = JEOCn|AWDn.  The eocie mask
(STM32F4_EOCIE) comes from the stm32-adc-core.h header, which is not part
of the sources here; it is modelled as bit 5 of the per-instance enable
register, and no theorem below depends on its particular value. -/
def stm32f4_adc_common_regs : CommonRegs :=
  { eoc1_msk := 0x23
    eoc2_msk := 0x2300
    eoc3_msk := 0x230000
    jeoc1_msk := 0x5
    jeoc2_msk := 0x500
    jeoc3_msk := 0x50000
    eocie_msk := 0x20 }

/-- STM32H7 register description (stm32h7_adc_common_regs).  Only two
instances exist; the C initializer leaves eoc3_msk/jeoc3_msk zero.
The eocie mask (STM32H7_EOCIE, from the header not present here) is
modelled as bit 2. -/
def stm32h7_adc_common_regs : CommonRegs :=
  { eoc1_msk := 0x394
    eoc2_msk := 0x3940000
    eoc3_msk := 0
    jeoc1_msk := 0x3C0
    jeoc2_msk := 0x3C00000
    jeoc3_msk := 0
    eocie_msk := 0x4 }

/-- stm32_adc_eoc_enabled: read instance adc's private interrupt-enable
register and mask with the EOCIE bit.  The per-instance register read
(base + offset[adc] + regs.ier) is modelled by the function ier from
instance index to the register's current content. -/
def stm32_adc_eoc_enabled (regs : CommonRegs) (ier : Nat → Nat) (adc : Nat) : Nat :=
  ier adc &&& regs.eocie_msk

/-- stm32_adc_irq_handler: one dispatch of the chained handler.  status is
the single CSR read; the returned list is the sequence of virtual interrupt
lines (hwirq numbers passed to irq_find_mapping) fired, in program order.
Regular completions for instance n fire line n and are gated on
stm32_adc_eoc_enabled; injected completions fire lines 3, 4, 5 with no
gating. -/
def stm32_adc_irq_handler (regs : CommonRegs) (status : Nat) (ier : Nat → Nat) :
    List Nat :=
  (if status &&& regs.eoc1_msk ≠ 0 ∧ stm32_adc_eoc_enabled regs ier 0 ≠ 0
   then [0] else []) ++
  (if status &&& regs.eoc2_msk ≠ 0 ∧ stm32_adc_eoc_enabled regs ier 1 ≠ 0
   then [1] else []) ++
  (if status &&& regs.eoc3_msk ≠ 0 ∧ stm32_adc_eoc_enabled regs ier 2 ≠ 0
   then [2] else []) ++
  (if status &&& regs.jeoc1_msk ≠ 0 then [3] else []) ++
  (if status &&& regs.jeoc2_msk ≠ 0 then [4] else []) ++
  (if status &&& regs.jeoc3_msk ≠ 0 then [5] else [])

/-- STM32F4 ADC prescaler division ratios (stm32f4_pclk_div). -/
def stm32f4_pclk_div : List Nat := [2, 4, 6, 8]

def STM32F4_ADC_ADCPRE_SHIFT : Nat := 16

/-- GENMASK(17, 16). -/
def STM32F4_ADC_ADCPRE_MASK : Nat := 0x30000

/-- Result of a successful stm32f4 clock selection: chosen table index i,
its divider, the published common rate, and the CCR value written back. -/
structure F4ClkPlan where
  idx : Nat
  div : Nat
  rate : Nat
  ccr : Nat
deriving DecidableEq

/-- stm32f4_adc_clk_sel.  aclk is the analog clock: none when the clock is
absent (priv->aclk NULL), some r when present with clk_get_rate = r.
ccr is the current CCR content (the readl before the read-modify-write).
Returns -ENOENT (-2) when the clock is missing, -EINVAL (-22) on zero rate
or when no divider satisfies the bound, otherwise the selected plan. -/
def stm32f4_adc_clk_sel (aclk : Option Nat) (max_clk_rate : Nat) (ccr : Nat) :
    Except Int F4ClkPlan :=
  match aclk with
  | none => .error (-2)
  | some rate =>
    if rate = 0 then .error (-22)
    else
      match stm32f4_pclk_div.enum.find?
          (fun p => decide (rate / p.2 ≤ max_clk_rate)) with
      | none => .error (-22)
      | some p =>
        .ok { idx := p.1
              div := p.2
              rate := rate / p.2
              ccr := (ccr &&& (0xFFFFFFFF ^^^ STM32F4_ADC_ADCPRE_MASK)) |||
                     (p.1 <<< STM32F4_ADC_ADCPRE_SHIFT) }

/-- One row of stm32h7_adc_ckmodes_spec: clock mode (0 = asynchronous,
1/2/3 = synchronous from the bus clock), PRESC bitfield, division ratio. -/
structure CkSpec where
  ckmode : Nat
  presc : Nat
  div : Nat
deriving DecidableEq

/-- stm32h7_adc_ckmodes_spec: asynchronous entries first (dividers 1 to
256), then the three synchronous entries (dividers 1, 2, 4). -/
def stm32h7_adc_ckmodes_spec : List CkSpec :=
  [⟨0, 0, 1⟩, ⟨0, 1, 2⟩, ⟨0, 2, 4⟩, ⟨0, 3, 6⟩, ⟨0, 4, 8⟩, ⟨0, 5, 10⟩,
   ⟨0, 6, 12⟩, ⟨0, 7, 16⟩, ⟨0, 8, 32⟩, ⟨0, 9, 64⟩, ⟨0, 10, 128⟩, ⟨0, 11, 256⟩,
   ⟨1, 0, 1⟩, ⟨2, 0, 2⟩, ⟨3, 0, 4⟩]

def STM32H7_PRESC_SHIFT : Nat := 18

/-- GENMASK(21, 18). -/
def STM32H7_PRESC_MASK : Nat := 0x3C0000

def STM32H7_CKMODE_SHIFT : Nat := 16

/-- GENMASK(17, 16). -/
def STM32H7_CKMODE_MASK : Nat := 0x30000

/-- The asynchronous (ckmode = 0) rows of the table, in order. -/
def stm32h7_async_specs : List CkSpec :=
  stm32h7_adc_ckmodes_spec.filter (fun s => decide (s.ckmode = 0))

/-- The synchronous (ckmode not 0) rows of the table, in order. -/
def stm32h7_sync_specs : List CkSpec :=
  stm32h7_adc_ckmodes_spec.filter (fun s => decide (s.ckmode ≠ 0))

/-- Result of a successful stm32h7 clock selection: the chosen table row,
the published common rate, and the CCR value written back. -/
structure H7ClkPlan where
  spec : CkSpec
  rate : Nat
  ccr : Nat
deriving DecidableEq

/-- The read-modify-write of CKMODE and PRESC into CCR performed at the
out label of stm32h7_adc_clk_sel. -/
def stm32h7_ccr_write (ccr : Nat) (s : CkSpec) : Nat :=
  (ccr &&& (0xFFFFFFFF ^^^ (STM32H7_CKMODE_MASK ||| STM32H7_PRESC_MASK))) |||
  (s.ckmode <<< STM32H7_CKMODE_SHIFT) ||| (s.presc <<< STM32H7_PRESC_SHIFT)

/-- The synchronous tail of stm32h7_adc_clk_sel: read the bus clock rate,
fail on zero, scan the table keeping only ckmode-nonzero rows. -/
def stm32h7_adc_sync_sel (brate : Nat) (max_clk_rate : Nat) (ccr : Nat) :
    Except Int H7ClkPlan :=
  if brate = 0 then .error (-22)
  else
    match stm32h7_adc_ckmodes_spec.find?
        (fun s => decide (s.ckmode ≠ 0) && decide (brate / s.div ≤ max_clk_rate)) with
    | some s => .ok { spec := s, rate := brate / s.div, ccr := stm32h7_ccr_write ccr s }
    | none => .error (-22)

/-- stm32h7_adc_clk_sel.  bclk (bus clock, mandatory) and aclk (analog
clock, optional) are none when absent, some r when present with rate r.
Mirrors the C control flow: missing bus clock is -ENOENT; a present analog
clock with zero rate is -EINVAL; otherwise the asynchronous rows are
scanned first and only if none satisfies the bound (or the analog clock is
absent) does the synchronous scan over the bus clock run. -/
def stm32h7_adc_clk_sel (aclk bclk : Option Nat) (max_clk_rate : Nat) (ccr : Nat) :
    Except Int H7ClkPlan :=
  match bclk with
  | none => .error (-2)
  | some brate =>
    match aclk with
    | none => stm32h7_adc_sync_sel brate max_clk_rate ccr
    | some arate =>
      if arate = 0 then .error (-22)
      else
        match stm32h7_adc_ckmodes_spec.find?
            (fun s => decide (s.ckmode = 0) && decide (arate / s.div ≤ max_clk_rate)) with
        | some s =>
          .ok { spec := s, rate := arate / s.div, ccr := stm32h7_ccr_write ccr s }
        | none => stm32h7_adc_sync_sel brate max_clk_rate ccr

/-- The ANASWVDD / EN_BOOSTER decision of stm32_adc_switches_supply_en
(the rule table on its vdda/vdd reads).  Arguments are the configured
syscfg masks and the measured voltages in microvolts; the result is the
pair (anaswvdd, en_booster) of register values the function goes on to
apply, where 0 means off and the mask value means on. -/
def stm32_adc_switches_decide (vbooster_mask anaswvdd_mask : Nat)
    (vdda vdd : Int) : Nat × Nat :=
  if vdda > 2700000 then (0, 0)
  else if vdd < 2700000 then (0, vbooster_mask)
  else (anaswvdd_mask, 0)

/-- The maximum clock rate computed by stm32_adc_probe from the optional
st,max-clk-rate-hz property and the datasheet maximum of the compatible. -/
def stm32_adc_max_clk_rate (override : Option Nat) (datasheet : Nat) : Nat :=
  match override with
  | some m => min m datasheet
  | none => datasheet

/-- Observable side effects of the power sequencer, in execution order.
Enable and disable calls are recorded only when actually performed
(a failed enable call is not recorded; its error is returned instead). -/
inductive HwOp where
  | switchesEn
  | switchesDis
  | vrefEn
  | vrefDis
  | bclkEn
  | bclkDis
  | aclkEn
  | aclkDis
  | ccrWrite (v : Nat)
  | ccrBackup
deriving DecidableEq

/-- Environment for one hw_start/hw_stop run: which optional clocks exist
(priv->bclk / priv->aclk non-NULL) and the outcome each fallible enable
call would report.  The rollback calls (regulator_disable,
stm32_adc_switches_supply_dis, clk_disable_unprepare) return void or have
their result ignored in the C code, so they have no outcome here. -/
structure HwEnv where
  hasBclk : Bool
  hasAclk : Bool
  switchesEnRes : Except Int Unit
  vrefEnRes : Except Int Unit
  bclkEnRes : Except Int Unit
  aclkEnRes : Except Int Unit

/-- The state the sequencer touches: the common control register and the
driver's backup copy priv->ccr_bak. -/
structure AdcState where
  ccr : Nat
  ccr_bak : Nat
deriving DecidableEq

/-- stm32_adc_core_hw_start: enable the analog-switch supply path, the
vref regulator, the bus clock (if present), the analog clock (if present),
then restore the backed-up CCR.  Any failure disables the already-enabled
steps in reverse order and returns that failure unchanged. -/
def stm32_adc_core_hw_start (env : HwEnv) (s : AdcState) :
    Except Int Unit × AdcState × List HwOp :=
  match env.switchesEnRes with
  | .error e => (.error e, s, [])
  | .ok _ =>
    match env.vrefEnRes with
    | .error e => (.error e, s, [.switchesEn, .switchesDis])
    | .ok _ =>
      match (if env.hasBclk then env.bclkEnRes else .ok ()) with
      | .error e => (.error e, s, [.switchesEn, .vrefEn, .vrefDis, .switchesDis])
      | .ok _ =>
        match (if env.hasAclk then env.aclkEnRes else .ok ()) with
        | .error e =>
          (.error e, s,
            [.switchesEn, .vrefEn] ++
            (if env.hasBclk then [.bclkEn, .bclkDis] else []) ++
            [.vrefDis, .switchesDis])
        | .ok _ =>
          (.ok (), { s with ccr := s.ccr_bak },
            [.switchesEn, .vrefEn] ++
            (if env.hasBclk then [.bclkEn] else []) ++
            (if env.hasAclk then [.aclkEn] else []) ++
            [.ccrWrite s.ccr_bak])

/-- stm32_adc_core_hw_stop: back up the current CCR into priv->ccr_bak
first, then disable the analog clock, bus clock, vref and switch supply in
reverse enable order.  The CCR register content itself may be lost by the
power-down; theorems quantify over its subsequent (corrupted) value. -/
def stm32_adc_core_hw_stop (env : HwEnv) (s : AdcState) :
    AdcState × List HwOp :=
  ({ s with ccr_bak := s.ccr },
   [.ccrBackup] ++
   (if env.hasAclk then [.aclkDis] else []) ++
   (if env.hasBclk then [.bclkDis] else []) ++
   [.vrefDis, .switchesDis])

/-- Splitting lemma for List.find?: a successful find yields a prefix of
elements failing the predicate, the found element, and a suffix. -/
theorem find_eq_some_split {α : Type} (p : α → Bool) :
    ∀ (l : List α) (x : α), l.find? p = some x →
      ∃ l1 l2, l = l1 ++ x :: l2 ∧ (∀ y ∈ l1, p y = false) ∧ p x = true := by
  intro l
  induction l with
  | nil => intro x h; simp [List.find?] at h
  | cons a t ih =>
    intro x h
    by_cases ha : p a
    · rw [List.find?_cons_of_pos _ ha] at h
      obtain rfl : a = x := by simpa using h
      exact ⟨[], t, rfl, by simp, ha⟩
    · rw [List.find?_cons_of_neg _ ha] at h
      obtain ⟨l1, l2, rfl, hfail, hx⟩ := ih x h
      refine ⟨a :: l1, l2, rfl, ?_, hx⟩
      intro y hy
      rcases List.mem_cons.mp hy with rfl | hy
      · exact Bool.eq_false_iff.mpr ha
      · exact hfail y hy

/-- If a list has a strictly increasing measure f and find? succeeds, then
every element of smaller measure fails the predicate. -/
theorem find_first_min {α : Type} (f : α → Nat) (p : α → Bool) (l : List α)
    (x : α) (hsort : l.Pairwise (fun a b => f a < f b))
    (hfind : l.find? p = some x) :
    p x = true ∧ ∀ y ∈ l, f y < f x → p y = false := by
  obtain ⟨l1, l2, rfl, hfail, hx⟩ := find_eq_some_split p l x hfind
  refine ⟨hx, ?_⟩
  intro y hy hlt
  rcases List.mem_append.mp hy with h1 | h2
  · exact hfail y h1
  · rcases List.mem_cons.mp h2 with rfl | h2
    · omega
    · exfalso
      have hp := (List.pairwise_append.mp hsort).2.1
      have := (List.pairwise_cons.mp hp).1 y h2
      omega

/-- find? with a conjunctive predicate is find? of the second conjunct on
the filtered list. -/
theorem find_and_eq_filter_find {α : Type} (c q : α → Bool) :
    ∀ l : List α, l.find? (fun a => c a && q a) = (l.filter c).find? q := by
  intro l
  induction l with
  | nil => simp
  | cons a t ih =>
    rw [List.find?_cons, List.filter_cons]
    by_cases hc : c a = true
    · by_cases hq : q a = true
      · rw [if_pos hc, List.find?_cons]
        simp only [hc, hq, Bool.and_self]
      · simp only [Bool.not_eq_true] at hq
        rw [if_pos hc, List.find?_cons]
        simp only [hc, hq, Bool.and_false]
        exact ih
    · simp only [Bool.not_eq_true] at hc
      rw [if_neg (by simp [hc])]
      simp only [hc, Bool.false_and]
      exact ih

instance {ε α : Type} [DecidableEq ε] [DecidableEq α] : DecidableEq (Except ε α) := fun a b =>
  match a, b with
  | .ok x, .ok y =>
    if h : x = y then .isTrue (by rw [h]) else .isFalse (by intro hc; cases hc; exact h rfl)
  | .error e, .error f =>
    if h : e = f then .isTrue (by rw [h]) else .isFalse (by intro hc; cases hc; exact h rfl)
  | .ok _, .error _ => .isFalse (by intro hc; cases hc)
  | .error _, .ok _ => .isFalse (by intro hc; cases hc)

/-- Membership in a conditional singleton. -/
theorem mem_ite_singleton {x y : Nat} {c : Prop} [Decidable c] :
    (x ∈ if c then [y] else []) ↔ c ∧ x = y := by
  split_ifs with h <;> simp [h]

/-- C1 counterexample: a dispatch in which only the injected-completion
bit JEOC2 of instance 1 (bit 10 of the STM32F4 status register) is set
delivers its single event to virtual line 4, not to line 3 = 2*1+1 as the
claim states. -/
theorem stm32_adc_irq_dispatch_cex :
    stm32_adc_irq_handler stm32f4_adc_common_regs 1024 (fun _ => 0) = [4] ∧
    3 ∉ stm32_adc_irq_handler stm32f4_adc_common_regs 1024 (fun _ => 0) := by
  refine ⟨by decide, by decide⟩

/-- C1 (amended): the virtual line for (instance i, regular) is i and for
(instance i, injected) is 3 + i, not 2*i + kind.  For each instance of the
STM32F4 layout, a status word holding only that instance's pure injected
bit (JEOCn) fires exactly the single line 3 + i whatever the enable
registers hold, and a status word holding only the pure regular bit (EOCn)
fires line i exactly when that instance's enable bit is set. -/
theorem stm32_adc_irq_dispatch_slots : ∀ ier : Nat → Nat,
    stm32_adc_irq_handler stm32f4_adc_common_regs 4 ier = [3] ∧
    stm32_adc_irq_handler stm32f4_adc_common_regs 1024 ier = [4] ∧
    stm32_adc_irq_handler stm32f4_adc_common_regs 262144 ier = [5] ∧
    stm32_adc_irq_handler stm32f4_adc_common_regs 2 ier =
      (if ier 0 &&& 0x20 ≠ 0 then [0] else []) ∧
    stm32_adc_irq_handler stm32f4_adc_common_regs 512 ier =
      (if ier 1 &&& 0x20 ≠ 0 then [1] else []) ∧
    stm32_adc_irq_handler stm32f4_adc_common_regs 131072 ier =
      (if ier 2 &&& 0x20 ≠ 0 then [2] else []) := by
  intro ier
  refine ⟨?_, ?_, ?_, ?_, ?_, ?_⟩ <;>
    simp +decide [stm32_adc_irq_handler, stm32_adc_eoc_enabled,
      stm32f4_adc_common_regs]

/-- C2: one dispatch delivers to instance i's regular line exactly when
the status word intersects that instance's regular-completion mask and the
instance's private enable register has the EOCIE bit set; it delivers to
the injected line exactly when the status intersects the injected mask,
with no enable gating.  The concrete conjunct is the gating example:
regular bit EOC1 set with the enable bit clear gives zero deliveries. -/
theorem stm32_adc_irq_dispatch_gating :
    (∀ (regs : CommonRegs) (status : Nat) (ier : Nat → Nat),
      (0 ∈ stm32_adc_irq_handler regs status ier ↔
        status &&& regs.eoc1_msk ≠ 0 ∧ ier 0 &&& regs.eocie_msk ≠ 0) ∧
      (1 ∈ stm32_adc_irq_handler regs status ier ↔
        status &&& regs.eoc2_msk ≠ 0 ∧ ier 1 &&& regs.eocie_msk ≠ 0) ∧
      (2 ∈ stm32_adc_irq_handler regs status ier ↔
        status &&& regs.eoc3_msk ≠ 0 ∧ ier 2 &&& regs.eocie_msk ≠ 0) ∧
      (3 ∈ stm32_adc_irq_handler regs status ier ↔
        status &&& regs.jeoc1_msk ≠ 0) ∧
      (4 ∈ stm32_adc_irq_handler regs status ier ↔
        status &&& regs.jeoc2_msk ≠ 0) ∧
      (5 ∈ stm32_adc_irq_handler regs status ier ↔
        status &&& regs.jeoc3_msk ≠ 0)) ∧
    stm32_adc_irq_handler stm32f4_adc_common_regs 2 (fun _ => 0) = [] := by
  refine ⟨?_, by decide⟩
  intro regs status ier
  unfold stm32_adc_irq_handler stm32_adc_eoc_enabled
  refine ⟨?_, ?_, ?_, ?_, ?_, ?_⟩ <;>
    simp only [List.mem_append, mem_ite_singleton] <;> simp

/-- C5: the analog-switch supply decision of stm32_adc_switches_supply_en
follows the exact rule table on the measured voltages, with the stated
concrete rows.  The result pair is (anaswvdd, en_booster); 0 is off and
the configured mask value is on. -/
theorem stm32_adc_switches_policy : ∀ (bm am : Nat) (vdda vdd : Int),
    (vdda > 2700000 → stm32_adc_switches_decide bm am vdda vdd = (0, 0)) ∧
    (vdda ≤ 2700000 → vdd < 2700000 →
      stm32_adc_switches_decide bm am vdda vdd = (0, bm)) ∧
    (vdda ≤ 2700000 → vdd ≥ 2700000 →
      stm32_adc_switches_decide bm am vdda vdd = (am, 0)) ∧
    stm32_adc_switches_decide bm am 2800000 vdd = (0, 0) ∧
    stm32_adc_switches_decide bm am 2600000 2500000 = (0, bm) ∧
    stm32_adc_switches_decide bm am 2600000 2800000 = (am, 0) := by
  intro bm am vdda vdd
  refine ⟨?_, ?_, ?_, ?_, ?_, ?_⟩ <;> unfold stm32_adc_switches_decide <;>
    intros <;> split_ifs <;> first | rfl | omega

/-- Witness for C5 at the booster-on row. -/
theorem stm32_adc_switches_policy_witness :
    stm32_adc_switches_decide 1 2 2600000 2500000 = (0, 1) :=
  (stm32_adc_switches_policy 1 2 2600000 2500000).2.1 (by decide) (by decide)

/-- C9: the maximum-rate bound is min(override, datasheet) when the
configuration supplies an override and the datasheet value otherwise, so
it never exceeds the datasheet value. -/
theorem stm32_adc_max_clk_rate_min : ∀ (ov d : Nat) (o : Option Nat),
    stm32_adc_max_clk_rate (some ov) d = min ov d ∧
    stm32_adc_max_clk_rate none d = d ∧
    stm32_adc_max_clk_rate o d ≤ d := by
  intro ov d o
  refine ⟨rfl, rfl, ?_⟩
  cases o with
  | none => exact Nat.le_refl d
  | some m => exact Nat.min_le_right m d

/-- C10: on stm32h7, a present analog clock reporting rate zero makes the
selector fail with -EINVAL for every bus-clock rate; it never reaches the
synchronous fallback even on a bus rate (64 MHz, bound 36 MHz) the sync
table would satisfy, as the aclk-absent run shows. -/
theorem stm32h7_zero_aclk_no_fallback :
    (∀ (brate max_clk_rate ccr : Nat),
      stm32h7_adc_clk_sel (some 0) (some brate) max_clk_rate ccr =
        .error (-22)) ∧
    stm32h7_adc_clk_sel none (some 64000000) 36000000 0 =
      .ok { spec := ⟨2, 0, 2⟩, rate := 32000000,
            ccr := stm32h7_ccr_write 0 ⟨2, 0, 2⟩ } ∧
    stm32h7_adc_clk_sel (some 0) (some 64000000) 36000000 0 =
      .error (-22) := by
  refine ⟨?_, by decide, by decide⟩
  intro brate max_clk_rate ccr
  rfl

/-- C6: when the analog-switch supply and vref steps succeed, the bus
clock exists and its enable fails with error e, hw_start performs exactly
the two rollback actions vref-disable then switch-supply-teardown (the
reverse of the enable order) and returns e itself, untouched by the
rollback calls. -/
theorem stm32_adc_core_hw_start_bclk_rollback :
    ∀ (env : HwEnv) (s : AdcState) (e : Int),
      env.switchesEnRes = .ok () → env.vrefEnRes = .ok () →
      env.hasBclk = true → env.bclkEnRes = .error e →
      stm32_adc_core_hw_start env s =
        (.error e, s, [.switchesEn, .vrefEn, .vrefDis, .switchesDis]) := by
  intro env s e h1 h2 h3 h4
  unfold stm32_adc_core_hw_start
  rw [h1, h2, h3, h4]
  rfl

/-- Witness for C6 with a forced -EIO on the bus clock. -/
theorem stm32_adc_core_hw_start_bclk_rollback_witness :
    stm32_adc_core_hw_start
        { hasBclk := true, hasAclk := true, switchesEnRes := .ok (),
          vrefEnRes := .ok (), bclkEnRes := .error (-5), aclkEnRes := .ok () }
        ⟨0, 0⟩ =
      (.error (-5), ⟨0, 0⟩, [.switchesEn, .vrefEn, .vrefDis, .switchesDis]) :=
  stm32_adc_core_hw_start_bclk_rollback
    { hasBclk := true, hasAclk := true, switchesEnRes := .ok (),
      vrefEnRes := .ok (), bclkEnRes := .error (-5), aclkEnRes := .ok () }
    ⟨0, 0⟩ (-5) rfl rfl rfl rfl

/-- C7: hw_stop backs up the control register first, and any subsequent
successful hw_start (under any step environment, after any corruption of
the register content in between) leaves the control register holding
exactly the value observed before the hw_stop. -/
theorem stm32_adc_ccr_round_trip :
    ∀ (env env2 : HwEnv) (s : AdcState) (junk : Nat) (s2 : AdcState)
      (tr : List HwOp),
      stm32_adc_core_hw_start env2
          { ccr := junk,
            ccr_bak := (stm32_adc_core_hw_stop env s).1.ccr_bak } =
        (.ok (), s2, tr) →
      s2.ccr = s.ccr := by
  intro env env2 s junk s2 tr h
  unfold stm32_adc_core_hw_start at h
  split at h
  · simp at h
  · split at h
    · simp at h
    · split at h
      · simp at h
      · split at h
        · simp at h
        · simp only [Prod.mk.injEq] at h
          obtain ⟨-, h2, -⟩ := h
          subst h2
          simp [stm32_adc_core_hw_stop]

/-- Witness for C7: CCR holds 42 before hw_stop, is corrupted to 7, and a
successful hw_start restores 42. -/
theorem stm32_adc_ccr_round_trip_witness :
    (AdcState.mk 42 42).ccr = (AdcState.mk 42 99).ccr :=
  stm32_adc_ccr_round_trip
    { hasBclk := true, hasAclk := false, switchesEnRes := .ok (),
      vrefEnRes := .ok (), bclkEnRes := .ok (), aclkEnRes := .ok () }
    { hasBclk := true, hasAclk := false, switchesEnRes := .ok (),
      vrefEnRes := .ok (), bclkEnRes := .ok (), aclkEnRes := .ok () }
    ⟨42, 99⟩ 7 ⟨42, 42⟩ [.switchesEn, .vrefEn, .bclkEn, .ccrWrite 42]
    (by decide)

/-- The four-entry stm32f4 divider table is scanned in strictly ascending
divider order. -/
theorem stm32f4_enum_sorted :
    (stm32f4_pclk_div.enum).Pairwise (fun a b => a.2 < b.2) := by decide

/-- The asynchronous rows of the stm32h7 table have strictly ascending
dividers. -/
theorem stm32h7_async_sorted :
    stm32h7_async_specs.Pairwise (fun a b => a.div < b.div) := by decide

/-- The synchronous rows of the stm32h7 table have strictly ascending
dividers. -/
theorem stm32h7_sync_sorted :
    stm32h7_sync_specs.Pairwise (fun a b => a.div < b.div) := by decide

/-- A successful synchronous selection is a ckmode-nonzero row satisfying
the bound, publishes brate divided by its divider, and no smaller
synchronous divider satisfies the bound. -/
theorem stm32h7_sync_sel_minimal (brate max_clk_rate ccr : Nat) (res : H7ClkPlan)
    (h : stm32h7_adc_sync_sel brate max_clk_rate ccr = .ok res) :
    res.spec.ckmode ≠ 0 ∧ brate / res.spec.div ≤ max_clk_rate ∧
    res.rate = brate / res.spec.div ∧
    ∀ s ∈ stm32h7_sync_specs, s.div < res.spec.div →
      max_clk_rate < brate / s.div := by
  unfold stm32h7_adc_sync_sel at h
  split at h
  · simp at h
  · rw [find_and_eq_filter_find] at h
    cases hf : (stm32h7_sync_specs).find?
        (fun s => decide (brate / s.div ≤ max_clk_rate)) with
    | none =>
      rw [show (stm32h7_adc_ckmodes_spec.filter fun s => decide (s.ckmode ≠ 0)) =
            stm32h7_sync_specs from rfl, hf] at h
      simp at h
    | some x =>
      rw [show (stm32h7_adc_ckmodes_spec.filter fun s => decide (s.ckmode ≠ 0)) =
            stm32h7_sync_specs from rfl, hf] at h
      simp only [Except.ok.injEq] at h
      subst h
      have hm := find_first_min CkSpec.div _ _ x stm32h7_sync_sorted hf
      have hb : brate / x.div ≤ max_clk_rate := by simpa using hm.1
      have hck : x.ckmode ≠ 0 := by
        have hx : x ∈ stm32h7_sync_specs := by
          obtain ⟨l1, l2, heq, -, -⟩ := find_eq_some_split _ _ _ hf
          rw [heq]; simp
        have := List.of_mem_filter hx
        simpa using this
      refine ⟨hck, hb, rfl, ?_⟩
      intro s hs hlt
      have h1 := hm.2 s hs hlt
      have h2 : ¬ (brate / s.div ≤ max_clk_rate) := by simpa using h1
      omega

/-- A successful stm32f4 selection satisfies the bound, publishes the
divided rate, and no smaller table divider satisfies the bound. -/
theorem stm32f4_clk_sel_ok_min :
    ∀ (rate max_clk_rate ccr : Nat) (res : F4ClkPlan),
      stm32f4_adc_clk_sel (some rate) max_clk_rate ccr = .ok res →
        rate / res.div ≤ max_clk_rate ∧ res.rate = rate / res.div ∧
        ∀ d ∈ stm32f4_pclk_div, d < res.div → max_clk_rate < rate / d := by
  intro rate max_clk_rate ccr res h
  simp only [stm32f4_adc_clk_sel] at h
  split at h
  · simp at h
  · cases hf : stm32f4_pclk_div.enum.find?
        (fun p => decide (rate / p.2 ≤ max_clk_rate)) with
    | none => rw [hf] at h; simp at h
    | some p =>
      rw [hf] at h
      simp only [Except.ok.injEq] at h
      subst h
      have hm := find_first_min (fun q => q.2) _ _ p stm32f4_enum_sorted hf
      have hb : rate / p.2 ≤ max_clk_rate := by simpa using hm.1
      refine ⟨hb, rfl, ?_⟩
      intro d hd hlt
      simp only [stm32f4_pclk_div, List.mem_cons, List.not_mem_nil, or_false] at hd
      have key : ∀ i d2, (i, d2) ∈ stm32f4_pclk_div.enum → d2 < p.2 →
          max_clk_rate < rate / d2 := by
        intro i d2 hmem hlt2
        have h1 := hm.2 (i, d2) hmem hlt2
        have h2 : ¬ (rate / d2 ≤ max_clk_rate) := by simpa using h1
        omega
      rcases hd with rfl | rfl | rfl | rfl
      · exact key 0 2 (by decide) hlt
      · exact key 1 4 (by decide) hlt
      · exact key 2 6 (by decide) hlt
      · exact key 3 8 (by decide) hlt

/-- A successful stm32h7 selection came from the table matching its
ckmode, satisfies the bound against that source clock's rate, publishes
the divided rate, and no smaller divider of that table satisfies the
bound. -/
theorem stm32h7_clk_sel_ok_min :
    ∀ (aclk bclk : Option Nat) (max_clk_rate ccr : Nat) (res : H7ClkPlan),
      stm32h7_adc_clk_sel aclk bclk max_clk_rate ccr = .ok res →
        (res.spec.ckmode = 0 →
          ∃ arate, aclk = some arate ∧ arate / res.spec.div ≤ max_clk_rate ∧
            res.rate = arate / res.spec.div ∧
            ∀ s ∈ stm32h7_async_specs, s.div < res.spec.div →
              max_clk_rate < arate / s.div) ∧
        (res.spec.ckmode ≠ 0 →
          ∃ brate, bclk = some brate ∧ brate / res.spec.div ≤ max_clk_rate ∧
            res.rate = brate / res.spec.div ∧
            ∀ s ∈ stm32h7_sync_specs, s.div < res.spec.div →
              max_clk_rate < brate / s.div) := by
  intro aclk bclk max_clk_rate ccr res h
  cases bclk with
  | none => simp [stm32h7_adc_clk_sel] at h
  | some brate =>
    cases aclk with
    | none =>
      have hs := stm32h7_sync_sel_minimal brate max_clk_rate ccr res h
      exact ⟨fun hc => absurd hc hs.1, fun _ =>
        ⟨brate, rfl, hs.2.1, hs.2.2.1, hs.2.2.2⟩⟩
    | some arate =>
      simp only [stm32h7_adc_clk_sel] at h
      split at h
      · simp at h
      · rw [find_and_eq_filter_find] at h
        cases hf : (stm32h7_async_specs).find?
            (fun s => decide (arate / s.div ≤ max_clk_rate)) with
        | none =>
          rw [show (stm32h7_adc_ckmodes_spec.filter fun s => decide (s.ckmode = 0)) =
                stm32h7_async_specs from rfl, hf] at h
          have hs := stm32h7_sync_sel_minimal brate max_clk_rate ccr res h
          exact ⟨fun hc => absurd hc hs.1, fun _ =>
            ⟨brate, rfl, hs.2.1, hs.2.2.1, hs.2.2.2⟩⟩
        | some x =>
          rw [show (stm32h7_adc_ckmodes_spec.filter fun s => decide (s.ckmode = 0)) =
                stm32h7_async_specs from rfl, hf] at h
          simp only [Except.ok.injEq] at h
          subst h
          have hm := find_first_min CkSpec.div _ _ x stm32h7_async_sorted hf
          have hb : arate / x.div ≤ max_clk_rate := by simpa using hm.1
          have hck : x.ckmode = 0 := by
            have hx : x ∈ stm32h7_async_specs := by
              obtain ⟨l1, l2, heq, -, -⟩ := find_eq_some_split _ _ _ hf
              rw [heq]; simp
            have := List.of_mem_filter hx
            simpa using this
          refine ⟨fun _ => ⟨arate, rfl, hb, rfl, ?_⟩, fun hc => absurd hck hc⟩
          intro s hs hlt
          have h1 := hm.2 s hs hlt
          have h2 : ¬ (arate / s.div ≤ max_clk_rate) := by simpa using h1
          omega

/-- C3: whenever a selection succeeds, on either variant, the chosen
divider satisfies rate / d less-or-equal max, no smaller divider of the
scanned table satisfies the bound, the published rate is exactly rate / d,
and the selection is deterministic. -/
theorem stm32_adc_clk_sel_minimal :
    (∀ (rate max_clk_rate ccr : Nat) (res : F4ClkPlan),
      stm32f4_adc_clk_sel (some rate) max_clk_rate ccr = .ok res →
        rate / res.div ≤ max_clk_rate ∧ res.rate = rate / res.div ∧
        ∀ d ∈ stm32f4_pclk_div, d < res.div → max_clk_rate < rate / d) ∧
    (∀ (a : Option Nat) (max_clk_rate ccr : Nat) (r1 r2 : Except Int F4ClkPlan),
      stm32f4_adc_clk_sel a max_clk_rate ccr = r1 →
      stm32f4_adc_clk_sel a max_clk_rate ccr = r2 → r1 = r2) ∧
    (∀ (aclk bclk : Option Nat) (max_clk_rate ccr : Nat) (res : H7ClkPlan),
      stm32h7_adc_clk_sel aclk bclk max_clk_rate ccr = .ok res →
        (res.spec.ckmode = 0 →
          ∃ arate, aclk = some arate ∧ arate / res.spec.div ≤ max_clk_rate ∧
            res.rate = arate / res.spec.div ∧
            ∀ s ∈ stm32h7_async_specs, s.div < res.spec.div →
              max_clk_rate < arate / s.div) ∧
        (res.spec.ckmode ≠ 0 →
          ∃ brate, bclk = some brate ∧ brate / res.spec.div ≤ max_clk_rate ∧
            res.rate = brate / res.spec.div ∧
            ∀ s ∈ stm32h7_sync_specs, s.div < res.spec.div →
              max_clk_rate < brate / s.div)) ∧
    (∀ (a b : Option Nat) (max_clk_rate ccr : Nat) (r1 r2 : Except Int H7ClkPlan),
      stm32h7_adc_clk_sel a b max_clk_rate ccr = r1 →
      stm32h7_adc_clk_sel a b max_clk_rate ccr = r2 → r1 = r2) := by
  refine ⟨stm32f4_clk_sel_ok_min, ?_, stm32h7_clk_sel_ok_min, ?_⟩
  · intro a max_clk_rate ccr r1 r2 h1 h2
    exact h1.symm.trans h2
  · intro a b max_clk_rate ccr r1 r2 h1 h2
    exact h1.symm.trans h2

/-- Witness for C3: 80 MHz source, 36 MHz bound, stm32f4 table picks
divider 4 and publishes 20 MHz. -/
theorem stm32_adc_clk_sel_minimal_witness :
    80000000 / (F4ClkPlan.mk 1 4 20000000 65536).div ≤ 36000000 ∧
    (F4ClkPlan.mk 1 4 20000000 65536).rate =
      80000000 / (F4ClkPlan.mk 1 4 20000000 65536).div :=
  ⟨(stm32_adc_clk_sel_minimal.1 80000000 36000000 0
      (F4ClkPlan.mk 1 4 20000000 65536) (by decide)).1,
   (stm32_adc_clk_sel_minimal.1 80000000 36000000 0
      (F4ClkPlan.mk 1 4 20000000 65536) (by decide)).2.1⟩

/-- C4: on stm32h7 the async table (dividers 1,2,4,...,256 in ascending
order) is scanned first whenever the analog clock is present with a
nonzero rate, the first satisfying row wins, and the selector falls back
to the bus clock's synchronous rows (dividers 1,2,4) exactly when no
async row satisfies the bound; 80 MHz analog source under a 36 MHz bound
yields the async divider-4 plan at 20 MHz. -/
theorem stm32h7_adc_clk_sel_prefers_async :
    stm32h7_async_specs.map CkSpec.div =
      [1, 2, 4, 6, 8, 10, 12, 16, 32, 64, 128, 256] ∧
    stm32h7_sync_specs.map CkSpec.div = [1, 2, 4] ∧
    (∀ (arate brate max_clk_rate ccr : Nat) (s : CkSpec), arate ≠ 0 →
      stm32h7_async_specs.find?
          (fun s => decide (arate / s.div ≤ max_clk_rate)) = some s →
      stm32h7_adc_clk_sel (some arate) (some brate) max_clk_rate ccr =
        .ok { spec := s, rate := arate / s.div,
              ccr := stm32h7_ccr_write ccr s }) ∧
    (∀ (arate brate max_clk_rate ccr : Nat), arate ≠ 0 →
      stm32h7_async_specs.find?
          (fun s => decide (arate / s.div ≤ max_clk_rate)) = none →
      stm32h7_adc_clk_sel (some arate) (some brate) max_clk_rate ccr =
        stm32h7_adc_clk_sel none (some brate) max_clk_rate ccr) ∧
    stm32h7_adc_clk_sel (some 80000000) (some 100000000) 36000000 0 =
      .ok { spec := ⟨0, 2, 4⟩, rate := 20000000,
            ccr := stm32h7_ccr_write 0 ⟨0, 2, 4⟩ } := by
  refine ⟨by decide, by decide, ?_, ?_, by decide⟩
  · intro arate brate max_clk_rate ccr s ha hf
    simp only [stm32h7_adc_clk_sel]
    rw [if_neg ha, find_and_eq_filter_find,
      show (stm32h7_adc_ckmodes_spec.filter fun s => decide (s.ckmode = 0)) =
        stm32h7_async_specs from rfl, hf]
  · intro arate brate max_clk_rate ccr ha hf
    simp only [stm32h7_adc_clk_sel]
    rw [if_neg ha, find_and_eq_filter_find,
      show (stm32h7_adc_ckmodes_spec.filter fun s => decide (s.ckmode = 0)) =
        stm32h7_async_specs from rfl, hf]

/-- Witness for C4's first-satisfying-async-row conjunct at the 80 MHz
example. -/
theorem stm32h7_adc_clk_sel_prefers_async_witness :
    stm32h7_adc_clk_sel (some 80000000) (some 1) 36000000 0 =
      .ok { spec := ⟨0, 2, 4⟩, rate := 80000000 / (4 : Nat),
            ccr := stm32h7_ccr_write 0 ⟨0, 2, 4⟩ } :=
  stm32h7_adc_clk_sel_prefers_async.2.2.1 80000000 1 36000000 0
    ⟨0, 2, 4⟩ (by decide) (by decide)

/-- C8 counterexample: the two failure causes the claim groups under one
NoClockSource kind produce different error codes.  On stm32f4 an absent
analog clock returns -ENOENT = -2 while a present zero-rate analog clock
returns -EINVAL = -22, and on stm32h7 a present zero-rate bus clock does
not even force a failure when an async row satisfies the bound. -/
theorem stm32_adc_clk_sel_error_kinds_cex :
    stm32f4_adc_clk_sel none 36000000 0 = .error (-2) ∧
    stm32f4_adc_clk_sel (some 0) 36000000 0 = .error (-22) ∧
    stm32h7_adc_clk_sel (some 80000000) (some 0) 36000000 0 =
      .ok { spec := ⟨0, 2, 4⟩, rate := 20000000,
            ccr := stm32h7_ccr_write 0 ⟨0, 2, 4⟩ } ∧
    (-2 : Int) ≠ (-22 : Int) := by
  refine ⟨rfl, by decide, by decide, by decide⟩

/-- The synchronous tail never reports -ENOENT. -/
theorem stm32h7_sync_sel_no_enoent (brate max_clk_rate ccr : Nat) :
    stm32h7_adc_sync_sel brate max_clk_rate ccr ≠ .error (-2) := by
  unfold stm32h7_adc_sync_sel
  split
  · intro h
    simp only [Except.error.injEq] at h
    omega
  · split
    · intro h
      simp at h
    · intro h
      simp only [Except.error.injEq] at h
      omega

/-- C8 (amended): each selector fails with -ENOENT exactly when its
mandatory clock is absent; a present mandatory clock reporting rate zero
fails with -EINVAL instead, the code shared with the rate-unsatisfiable
failure (on stm32h7 only when the synchronous path is actually consulted).
The absent and zero-rate cases therefore do not share one error kind. -/
theorem stm32_adc_clk_sel_error_kinds :
    (∀ (a : Option Nat) (max_clk_rate ccr : Nat),
      stm32f4_adc_clk_sel a max_clk_rate ccr = .error (-2) ↔ a = none) ∧
    (∀ (max_clk_rate ccr : Nat),
      stm32f4_adc_clk_sel (some 0) max_clk_rate ccr = .error (-22)) ∧
    (∀ (a b : Option Nat) (max_clk_rate ccr : Nat),
      stm32h7_adc_clk_sel a b max_clk_rate ccr = .error (-2) ↔ b = none) ∧
    (∀ (max_clk_rate ccr : Nat),
      stm32h7_adc_clk_sel none (some 0) max_clk_rate ccr = .error (-22)) ∧
    (-2 : Int) ≠ (-22 : Int) := by
  refine ⟨?_, ?_, ?_, ?_, by decide⟩
  · intro a max_clk_rate ccr
    cases a with
    | none => simp [stm32f4_adc_clk_sel]
    | some rate =>
      simp only [stm32f4_adc_clk_sel]
      constructor
      · intro h
        exfalso
        split at h
        · simp only [Except.error.injEq] at h
          omega
        · split at h
          · simp only [Except.error.injEq] at h
            omega
          · simp at h
      · intro h
        cases h
  · intro max_clk_rate ccr
    rfl
  · intro a b max_clk_rate ccr
    cases b with
    | none => cases a <;> simp [stm32h7_adc_clk_sel]
    | some brate =>
      constructor
      · intro h
        exfalso
        cases a with
        | none => exact stm32h7_sync_sel_no_enoent brate max_clk_rate ccr h
        | some arate =>
          simp only [stm32h7_adc_clk_sel] at h
          split at h
          · simp only [Except.error.injEq] at h
            omega
          · split at h
            · simp at h
            · exact stm32h7_sync_sel_no_enoent brate max_clk_rate ccr h
      · intro h
        cases h
  · intro max_clk_rate ccr
    rfl

/-- Witness for C8's zero-rate conjunct on stm32f4. -/
theorem stm32_adc_clk_sel_error_kinds_witness :
    stm32f4_adc_clk_sel (some 0) 1 0 = .error (-22) :=
  stm32_adc_clk_sel_error_kinds.2.1 1 0

/-- Witness instantiating C1's amended slot map: the pure injected bit of
instance 0 fires exactly line 3. -/
theorem stm32_adc_irq_dispatch_slots_witness :
    stm32_adc_irq_handler stm32f4_adc_common_regs 4 (fun _ => 0) = [3] :=
  (stm32_adc_irq_dispatch_slots (fun _ => 0)).1

/-- Witness instantiating C2's gating example. -/
theorem stm32_adc_irq_dispatch_gating_witness :
    stm32_adc_irq_handler stm32f4_adc_common_regs 2 (fun _ => 0) = [] :=
  stm32_adc_irq_dispatch_gating.2

/-- Witness instantiating C9 at a 10 Hz override under a 40 MHz datasheet
maximum. -/
theorem stm32_adc_max_clk_rate_min_witness :
    stm32_adc_max_clk_rate (some 10) 40000000 = min 10 40000000 :=
  (stm32_adc_max_clk_rate_min 10 40000000 none).1

/-- Witness instantiating C10 at the 64 MHz bus rate the sync table would
satisfy. -/
theorem stm32h7_zero_aclk_no_fallback_witness :
    stm32h7_adc_clk_sel (some 0) (some 64000000) 36000000 0 =
      .error (-22) :=
  stm32h7_zero_aclk_no_fallback.1 64000000 36000000 0
